import Mathlib

/-!
Verification development for the lx plugin runner
(src/xiaomusic/lx_plugin_runner.js and its near-duplicate variant
src/unnamed/part_000).

The runner is a stream-framed request/response bridge: it loads one plugin
module, registers the plugin's handlers in an event registry, reads
line-delimited JSON requests from stdin, dispatches each to the plugin's
single request handler, and writes one JSON response line to stdout per
request, plus a single readiness notification after a successful load.

The embedding below translates the relevant functions of the source into
executable Lean definitions: JavaScript values become the inductive JVal,
JavaScript exceptions become Except, the stdin data handler's line loop
becomes processLines, and the event loop interleaving of several data
events becomes a small deterministic simulator (simLoop).
-/

namespace LXRunner

/-- JavaScript values as manipulated by the runner: null, undefined,
booleans, numbers, strings, objects (association lists, as produced by
JSON.parse, so keys are unique), and arrays. -/
inductive JVal where
  | null
  | undef
  | bool (b : Bool)
  | num (n : Int)
  | str (s : String)
  | obj (fields : List (String × JVal))
  | arr (elems : List JVal)

/-- A protocol message id: JSON.parse yields a number, a string, or null;
a message without an id field destructures to undefined. -/
inductive JId where
  | null
  | undef
  | num (n : Int)
  | str (s : String)
  deriving DecidableEq, Repr

/-- Association-list field lookup on a parsed JSON object: a missing key
reads as undefined, exactly as JavaScript member access does. -/
def lookupField (fs : List (String × JVal)) (k : String) : JVal :=
  match fs.find? (fun p => p.1 == k) with
  | some p => p.2
  | none => JVal.undef

/-- JavaScript member access v.k: throws a TypeError on null and on
undefined, reads the field of an object, and yields undefined on other
primitives (none of the keys the runner reads is a built-in property of a
primitive wrapper). -/
def getProp (v : JVal) (k : String) : Except String JVal :=
  match v with
  | JVal.null => Except.error ("Cannot read properties of null (reading " ++ k ++ ")")
  | JVal.undef => Except.error ("Cannot read properties of undefined (reading " ++ k ++ ")")
  | JVal.obj fs => Except.ok (lookupField fs k)
  | _ => Except.ok JVal.undef

/-- A JavaScript default parameter value: it applies exactly when the
argument is undefined. -/
def orDefault (v d : JVal) : JVal :=
  match v with
  | JVal.undef => d
  | _ => v

/-- JavaScript truthiness: null, undefined, false, 0 and the empty string
are falsy. -/
def isFalsy : JVal → Bool
  | JVal.null => true
  | JVal.undef => true
  | JVal.bool b => !b
  | JVal.num n => n == 0
  | JVal.str s => s == ""
  | _ => false

/-- The JavaScript expression v or-else d (the logical-or operator used at
options.quality for the default quality tag): d when v is falsy. -/
def jsOr (v d : JVal) : JVal :=
  if isFalsy v then d else v

/-- The action descriptor handed to the plugin's request handler by
handleExternalRequest in the source: action name, source tag, and the
operation-specific info payload. -/
structure ActionDesc where
  action : String
  source : JVal
  info : JVal

/-- The host state the dispatch path reads: the ordered list of handlers
registered for the multiplexed request event (events[EVENT_NAMES.REQUEST]
in the source).  A handler takes the action descriptor and either resolves
with a value or rejects/throws with an error message; the source's
handleExternalRequest normalizes a synchronous return and a promise into
this one awaited outcome. -/
structure HostEnv where
  requestHandlers : List (ActionDesc → Except String JVal)

/-- handleExternalRequest from the source: if no handler is registered for
the request event, reject with the fixed message; otherwise invoke the
first registered handler with the descriptor and await its outcome. -/
def handleExternalRequest (env : HostEnv) (action : String) (source info : JVal) :
    Except String JVal :=
  match env.requestHandlers with
  | [] => Except.error "No request handler registered"
  | h :: _ => h ⟨action, source, info⟩

/-- runner.search from the source: defaults page to 1, limit to 30 and
source to the string all when the arguments are undefined, then dispatches
the search action with the keyword, page and limit payload.  (The lx-API
availability guard always passes in a loaded host, since globalThis.lx is
assigned at module top level before any request can arrive.) -/
def runnerSearch (env : HostEnv) (keyword page limit source _options : JVal) :
    Except String JVal :=
  handleExternalRequest env "search" (orDefault source (JVal.str "all"))
    (JVal.obj [("keyword", keyword),
               ("page", orDefault page (JVal.num 1)),
               ("limit", orDefault limit (JVal.num 30))])

/-- runner.getMediaSource from the source: defaults source and options,
reads options.quality (falling back to the string 128k when falsy), and
dispatches the musicUrl action.  The property read happens while the
argument object is built, before handleExternalRequest runs, so a null
options value raises a TypeError first. -/
def runnerGetMediaSource (env : HostEnv) (musicItem source options : JVal) :
    Except String JVal := do
  let q ← getProp (orDefault options (JVal.obj [])) "quality"
  handleExternalRequest env "musicUrl" (orDefault source (JVal.str "all"))
    (JVal.obj [("musicInfo", musicItem), ("type", jsOr q (JVal.str "128k"))])

/-- runner.getLyric from the source: dispatches the lyric action with the
music item as payload. -/
def runnerGetLyric (env : HostEnv) (musicItem source _options : JVal) :
    Except String JVal :=
  handleExternalRequest env "lyric" (orDefault source (JVal.str "all"))
    (JVal.obj [("musicInfo", musicItem)])

/-- runner.getAlbum from the source: dispatches the album action with the
album id, page and limit payload. -/
def runnerGetAlbum (env : HostEnv) (albumId page limit source _options : JVal) :
    Except String JVal :=
  handleExternalRequest env "album" (orDefault source (JVal.str "all"))
    (JVal.obj [("albumId", albumId),
               ("page", orDefault page (JVal.num 1)),
               ("limit", orDefault limit (JVal.num 30))])

/-- runner.getArtist from the source: dispatches the artist action with
the artist id, page and limit payload. -/
def runnerGetArtist (env : HostEnv) (artistId page limit source _options : JVal) :
    Except String JVal :=
  handleExternalRequest env "artist" (orDefault source (JVal.str "all"))
    (JVal.obj [("artistId", artistId),
               ("page", orDefault page (JVal.num 1)),
               ("limit", orDefault limit (JVal.num 30))])

/-- runner.getRecommend from the source: dispatches the recommend action
with the music item, page and limit payload. -/
def runnerGetRecommend (env : HostEnv) (musicItem page limit source _options : JVal) :
    Except String JVal :=
  handleExternalRequest env "recommend" (orDefault source (JVal.str "all"))
    (JVal.obj [("musicInfo", musicItem),
               ("page", orDefault page (JVal.num 1)),
               ("limit", orDefault limit (JVal.num 30))])

/-- An inbound protocol message after JSON.parse and destructuring: the
fields id, method and params of the parsed object (absent fields read as
undefined; a non-string method only ever hits the default switch case). -/
structure InMsg where
  id : JId
  method : String
  params : JVal

/-- The switch statement of the stdin data handler: looks the method up in
the fixed six-operation table and invokes the matching runner operation
with the positional arguments read off params.  Reading a field of an
absent (undefined) params object throws, and the throw is caught by the
inner try of the source, which the Except error represents; an unknown
method throws the fixed unknown-method message. -/
def dispatchMethod (env : HostEnv) (method : String) (params : JVal) :
    Except String JVal :=
  match method with
  | "search" => do
      let kw ← getProp params "keyword"
      let pg ← getProp params "page"
      let lim ← getProp params "limit"
      let src ← getProp params "source"
      let opt ← getProp params "options"
      runnerSearch env kw pg lim src opt
  | "getMediaSource" => do
      let item ← getProp params "musicItem"
      let src ← getProp params "source"
      let opt ← getProp params "options"
      runnerGetMediaSource env item src opt
  | "getLyric" => do
      let item ← getProp params "musicItem"
      let src ← getProp params "source"
      let opt ← getProp params "options"
      runnerGetLyric env item src opt
  | "getAlbum" => do
      let aid ← getProp params "albumId"
      let pg ← getProp params "page"
      let lim ← getProp params "limit"
      let src ← getProp params "source"
      let opt ← getProp params "options"
      runnerGetAlbum env aid pg lim src opt
  | "getArtist" => do
      let aid ← getProp params "artistId"
      let pg ← getProp params "page"
      let lim ← getProp params "limit"
      let src ← getProp params "source"
      let opt ← getProp params "options"
      runnerGetArtist env aid pg lim src opt
  | "getRecommend" => do
      let item ← getProp params "musicItem"
      let pg ← getProp params "page"
      let lim ← getProp params "limit"
      let src ← getProp params "source"
      let opt ← getProp params "options"
      runnerGetRecommend env item pg lim src opt
  | other => Except.error ("Unknown method: " ++ other)

/-- An outbound protocol message: the object the source builds and writes
as one JSON line.  In the source, result stays undefined when the dispatch
threw (the let-variable is never assigned) and error stays null when it
succeeded. -/
structure OutMsg where
  id : JId
  result : JVal
  error : JVal

/-- The response the stdin data handler assembles for one successfully
parsed message: the inbound id verbatim, and either the dispatched value
with a null error, or an undefined result with the caught error message. -/
def mkResponse (env : HostEnv) (m : InMsg) : OutMsg :=
  match dispatchMethod env m.method m.params with
  | Except.ok v => { id := m.id, result := v, error := JVal.null }
  | Except.error e => { id := m.id, result := JVal.undef, error := JVal.str e }

/-- One non-empty line extracted from the inbound buffer, abstracted over
the platform JSON parser: either it parsed to a message, or JSON.parse
threw (carrying the parse-failure detail), or the line was blank and is
skipped by the loop. -/
inductive ParsedLine where
  | ok (m : InMsg)
  | malformed (detail : String)
  | blank

/-- The while loop of the stdin data handler, run in isolation: one data
event whose handler runs to completion before any further data event is
delivered, so no concurrent invocation touches the shared buffer.  Each
parsed line is dispatched, awaited, and answered in order.  On a malformed line the catch block evaluates the
identifier message, which was declared with const inside the try block and
is not in scope in the catch, so a ReferenceError is raised inside the
catch handler: no error response is written, the loop is aborted, and the
remaining lines of the chunk are never processed (the second component
records the escaped exception). -/
def processLines (env : HostEnv) : List ParsedLine → List OutMsg × Option String
  | [] => ([], none)
  | ParsedLine.blank :: rest => processLines env rest
  | ParsedLine.ok m :: rest =>
      (mkResponse env m :: (processLines env rest).1, (processLines env rest).2)
  | ParsedLine.malformed _ :: _ =>
      ([], some "ReferenceError: message is not defined")

/-- The readiness notification written once after a successful load:
id null, result an object asserting initialization, error null. -/
def initMsg : OutMsg :=
  { id := JId.null,
    result := JVal.obj [("initialized", JVal.bool true)],
    error := JVal.null }

/-- The outbound stream of a successfully loaded run that then receives
the given lines sequentially: the source writes the readiness notification
synchronously in the same continuation that registers the stdin data
handler, before the event loop can deliver any data event, so it precedes
every response. -/
def runTrace (env : HostEnv) (lines : List ParsedLine) : List OutMsg :=
  initMsg :: (processLines env lines).1

/-!
The event registry and its fan-out.  The source keeps, per event name, an
ordered array of callbacks; emit calls events[event].forEach with a
callback wrapper that try/catches each handler.  A handler invoked during
an emission can mutate the very array being iterated (the plugin receives
on and the live events object), so the effect a handler has on the list is
part of the model: it can do nothing, throw (the wrapper catches and logs
the throw, and iteration continues), splice out the handler at an index
(the ad hoc removal idiom the variant source uses), or push a new handler.
-/

/-- The effect a handler has on the handler list of the event being
emitted when it is invoked. -/
inductive HEffect where
  | pure
  | throws
  | removeAt (i : Nat)
  | appendNew (nm : String)
  deriving DecidableEq, Repr

/-- A registered handler: a name identifying it in the invocation log,
and its effect on the handler list. -/
structure Handler where
  hname : String
  eff : HEffect
  deriving DecidableEq, Repr

/-- Running one handler: its effect on the handler list of the event being
emitted.  A throwing handler is caught by the try/catch inside the forEach
callback wrapper, so for the iteration it behaves like a no-op. -/
def applyEff (h : Handler) (l : List Handler) : List Handler :=
  match h.eff with
  | HEffect.pure => l
  | HEffect.throws => l
  | HEffect.removeAt i => l.eraseIdx i
  | HEffect.appendNew nm => l ++ [⟨nm, HEffect.pure⟩]

/-- Whether a handler effect unregisters a handler of the emitted event
during the emission. -/
def removes : HEffect → Bool
  | HEffect.removeAt _ => true
  | _ => false

/-- Array.prototype.forEach over the live handler list, as emit uses it:
the length is read once before the loop, the element at each successive
index is read from the current (possibly mutated) array, and an index with
no element (the array shrank below it) is skipped.  Returns the final list
and the names of the handlers that were invoked, in invocation order.
The first argument counts the remaining indices (cached length minus the
current index k). -/
def forEachGo : Nat → Nat → List Handler → List Handler × List String
  | 0, _, l => (l, [])
  | r + 1, k, l =>
    match getElem? l k with
    | some h =>
      ((forEachGo r (k + 1) (applyEff h l)).1,
       h.hname :: (forEachGo r (k + 1) (applyEff h l)).2)
    | none => forEachGo r (k + 1) l

/-- emit from the source, for an event with a registered handler list l:
forEach over the live list with the element count cached at emission
start. -/
def emit (l : List Handler) : List Handler × List String :=
  forEachGo l.length 0 l

/-!
send, the module-to-host notifier (main runner, lines 169 to 183).  In the
main-thread run parentPort is null, so the branch on the event name
decides the destination: the inited readiness event is written to stdout
as a protocol line, every other event only reaches the debug log.
-/

/-- Where one send call delivers its message: the worker parent port (not
taken in the main-thread run), the outbound protocol stream (stdout), or
the diagnostic log file. -/
inductive SendDest where
  | parentPost (event : String) (data : JVal)
  | protocolWrite (event : String) (data : JVal)
  | diagLog (event : String) (data : JVal)

/-- send from the main runner: posts to the parent port when one exists;
otherwise forwards the inited event to the protocol stream and diverts
every other event to the diagnostic log. -/
def send (hasParentPort : Bool) (event : String) (data : JVal) : SendDest :=
  if hasParentPort then SendDest.parentPost event data
  else if event = "inited" then SendDest.protocolWrite event data
  else SendDest.diagLog event data

/-- Whether a send delivery touched the outbound protocol stream. -/
def isProtocolWrite : SendDest → Bool
  | SendDest.protocolWrite _ _ => true
  | _ => false

/-- send from the variant source (src/unnamed/part_000, lines 115 to
122): posts to the parent port when one exists; otherwise writes every
event, whatever its name, to stdout as a protocol line — it has no
event-name filter at all. -/
def variantSend (hasParentPort : Bool) (event : String) (data : JVal) : SendDest :=
  if hasParentPort then SendDest.parentPost event data
  else SendDest.protocolWrite event data

/-!
Event-loop simulator for the stdin data handler.  Each data event runs a
fresh invocation of the async handler; all invocations share the one
buffer closure.  An invocation synchronously extracts lines and suspends
at the await of each dispatch; it resumes when that dispatch resolves.
Time is discrete: a dispatch carries a delay in ticks (a plugin handler
that resolves after a timer), chunks arrive one per tick, and a dispatch
with delay zero resolves in a microtask, i.e. still within the current
tick, before the next chunk can arrive.
-/

/-- The scheduling state of one invocation of the stdin data handler:
either it is at the top of its extraction loop, or it is suspended at the
await of the dispatch of message m with the given ticks remaining. -/
inductive TaskPhase where
  | extracting
  | awaiting (m : InMsg) (remaining : Nat)

/-- Run one handler invocation from its extraction loop until it suspends,
finishes, or dies: lines are popped from the shared buffer; a blank line
is skipped; a dispatch with delay zero writes its response within the same
activation and the loop continues; a dispatch with positive delay suspends
the task; a malformed line raises the out-of-scope ReferenceError in the
catch block and the task dies without writing.  The fuel bounds the number
of buffer entries consumed (buffer length plus one always suffices).
Returns the remaining buffer, the output written (appended in order), and
the task's continuation when it suspended. -/
def runExtract (env : HostEnv) (delay : InMsg → Nat) :
    Nat → List ParsedLine → List OutMsg →
    List ParsedLine × List OutMsg × Option TaskPhase
  | 0, buf, out => (buf, out, none)
  | _ + 1, [], out => ([], out, none)
  | f + 1, l :: rest, out =>
    match l with
    | ParsedLine.blank => runExtract env delay f rest out
    | ParsedLine.malformed _ => (rest, out, none)
    | ParsedLine.ok m =>
      if delay m = 0 then
        runExtract env delay f rest (out ++ [mkResponse env m])
      else
        (rest, out, some (TaskPhase.awaiting m (delay m)))

/-- Run one task for the current tick: an extracting task runs its loop; a
task whose awaited dispatch has resolved (zero ticks remaining) writes the
response and continues its loop; a still-suspended task is unchanged. -/
def runPhase (env : HostEnv) (delay : InMsg → Nat)
    (buf : List ParsedLine) (out : List OutMsg) :
    TaskPhase → List ParsedLine × List OutMsg × Option TaskPhase
  | TaskPhase.extracting => runExtract env delay (buf.length + 1) buf out
  | TaskPhase.awaiting m r =>
    if r = 0 then
      runExtract env delay (buf.length + 1) buf (out ++ [mkResponse env m])
    else
      (buf, out, some (TaskPhase.awaiting m r))

/-- Run every live task once for the current tick, in creation order,
threading the shared buffer and the output stream. -/
def runAll (env : HostEnv) (delay : InMsg → Nat) :
    List TaskPhase → List ParsedLine → List OutMsg →
    List ParsedLine × List OutMsg × List TaskPhase
  | [], buf, out => (buf, out, [])
  | ph :: ts, buf, out =>
    let (buf2, out2, ph2) := runPhase env delay buf out ph
    let (buf3, out3, ts2) := runAll env delay ts buf2 out2
    (buf3, out3, (match ph2 with | some p => [p] | none => []) ++ ts2)

/-- Advance every suspended task's timer by one tick. -/
def tickDec : List TaskPhase → List TaskPhase :=
  List.map (fun ph =>
    match ph with
    | TaskPhase.awaiting m (r + 1) => TaskPhase.awaiting m r
    | p => p)

/-- The event loop: one list entry of arrivals per tick (the chunk the
stdin data event delivers at that tick, empty when none arrives).  At each
tick the arriving chunk is appended to the shared buffer and a new handler
invocation is spawned for it, every runnable task runs, and then the
suspended timers advance.  Returns the outbound stream in write order. -/
def simLoop (env : HostEnv) (delay : InMsg → Nat) :
    Nat → List (List ParsedLine) → List TaskPhase → List ParsedLine →
    List OutMsg → List OutMsg
  | 0, _, _, _, out => out
  | t + 1, arrivals, tasks, buf, out =>
    let chunk := arrivals.headD []
    let rest := arrivals.tail
    let buf1 := buf ++ chunk
    let tasks1 := tasks ++ (if chunk.isEmpty then [] else [TaskPhase.extracting])
    let (buf2, out2, tasks2) := runAll env delay tasks1 buf1 out
    simLoop env delay t rest (tickDec tasks2) buf2 out2

/-!
The near-duplicate variant (src/unnamed/part_000).  Its LXPluginRunner
class defines only loadPlugin, search and getMediaSource, yet its stdin
switch still calls runner.getLyric, runner.getAlbum, runner.getArtist and
runner.getRecommend; reading the missing method off the instance yields
undefined and the call raises a TypeError, which the inner catch turns
into the error field of the response.  Its search and getMediaSource use
the event round-trip strategy: they suspend on a promise resolved only
when the plugin later emits the operation-specific event.
-/

/-- The methods the variant's LXPluginRunner class actually defines. -/
def variantHasMethod : String → Bool
  | "loadPlugin" => true
  | "search" => true
  | "getMediaSource" => true
  | _ => false

/-- The outcome of the variant's stdin switch for one parsed message:
either the handler invocation suspends on the round-trip promise (search
and getMediaSource resolve only when the plugin emits the matching
event), or a response is written. -/
inductive VariantOutcome where
  | blocksAwaiting (eventName : String)
  | responds (r : OutMsg)

/-- The four switch cases of the variant that call a method the class does
not define: the arguments are read off params first (member access, which
throws on an absent params object), then the call of the undefined member
raises the is-not-a-function TypeError. -/
def variantMissingCall (method : String) (argKeys : List String) (params : JVal) :
    Except String JVal := do
  let _ ← argKeys.foldlM (fun (_ : JVal) k => getProp params k) JVal.undef
  Except.error ("runner." ++ method ++ " is not a function")

/-- The variant's response assembly, identical in shape to the main
runner's: inbound id verbatim, dispatched value on success with a null
error, or an unassigned (undefined) result with the caught error
message. -/
def mkVariantResponse (m : InMsg) (r : Except String JVal) : VariantOutcome :=
  match r with
  | Except.ok v => VariantOutcome.responds { id := m.id, result := v, error := JVal.null }
  | Except.error e =>
    VariantOutcome.responds { id := m.id, result := JVal.undef, error := JVal.str e }

/-- The variant's stdin switch for one parsed message: search and
getMediaSource suspend on the round-trip event; the four methods missing
from the class raise the TypeError, answered as an error response; an
unknown method is answered with the fixed unknown-method message. -/
def variantProcess (m : InMsg) : VariantOutcome :=
  match m.method with
  | "search" => VariantOutcome.blocksAwaiting "search"
  | "getMediaSource" => VariantOutcome.blocksAwaiting "musicUrl"
  | "getLyric" =>
    mkVariantResponse m (variantMissingCall "getLyric" ["musicItem", "source", "options"] m.params)
  | "getAlbum" =>
    mkVariantResponse m
      (variantMissingCall "getAlbum" ["albumId", "page", "limit", "source", "options"] m.params)
  | "getArtist" =>
    mkVariantResponse m
      (variantMissingCall "getArtist" ["artistId", "page", "limit", "source", "options"] m.params)
  | "getRecommend" =>
    mkVariantResponse m
      (variantMissingCall "getRecommend" ["musicItem", "page", "limit", "source", "options"] m.params)
  | other =>
    mkVariantResponse m (Except.error ("Unknown method: " ++ other))

/-!
Concrete inputs used by witnesses and counterexamples.
-/

/-- A loaded host whose plugin registered one request handler that always
resolves with a fixed string. -/
def hitEnv : HostEnv := ⟨[fun _ => Except.ok (JVal.str "hit")]⟩

/-- A loaded host whose plugin's request handler resolves with null (a
perfectly legal plugin behavior, e.g. reporting that nothing was found). -/
def nullResultEnv : HostEnv := ⟨[fun _ => Except.ok JVal.null]⟩

/-- A loaded host whose plugin's request handler resolves with a fixed
two-item list. -/
def twoItemEnv : HostEnv :=
  ⟨[fun _ => Except.ok (JVal.arr [JVal.str "song1", JVal.str "song2"])]⟩

/-- A well-formed search request with id 7. -/
def wMsg7 : InMsg := ⟨JId.num 7, "search", JVal.obj [("keyword", JVal.str "abc")]⟩

/-- A well-formed search request with id 1. -/
def wMsgA : InMsg := ⟨JId.num 1, "search", JVal.obj [("keyword", JVal.str "slow")]⟩

/-- A well-formed search request with id 2. -/
def wMsgB : InMsg := ⟨JId.num 2, "search", JVal.obj [("keyword", JVal.str "fast")]⟩

/-- A well-formed search request with id 3. -/
def wMsgC : InMsg := ⟨JId.num 3, "search", JVal.obj [("keyword", JVal.str "quick")]⟩

/-- The dispatch timing used by the concurrency counterexample: the
request with id 1 resolves after two ticks, every other request resolves
immediately. -/
def slowFirstDelay (m : InMsg) : Nat :=
  if m.id = JId.num 1 then 2 else 0

/-!
Helper lemmas shared by several claim theorems.
-/

/-- The response echoes the inbound id whatever the dispatch outcome. -/
theorem mkResponse_id (env : HostEnv) (m : InMsg) : (mkResponse env m).id = m.id := by
  unfold mkResponse
  cases dispatchMethod env m.method m.params <;> rfl

/-- Sequential processing of a chunk of well-formed lines answers them
one-to-one, in order. -/
theorem processLines_forall2 (env : HostEnv) :
    ∀ lines : List ParsedLine, (∀ l ∈ lines, ∃ m : InMsg, l = ParsedLine.ok m) →
      List.Forall₂ (fun l r => ∃ m : InMsg, l = ParsedLine.ok m ∧ r = mkResponse env m)
        lines (processLines env lines).1 := by
  intro lines
  induction lines with
  | nil => intro _; exact List.Forall₂.nil
  | cons l rest ih =>
    intro h
    obtain ⟨m, rfl⟩ := h l (List.mem_cons_self l rest)
    exact List.Forall₂.cons ⟨m, rfl, rfl⟩ (ih fun x hx => h x (List.mem_cons_of_mem _ hx))

/-- Every response the sequential loop writes is the response of some
inbound line of the chunk. -/
theorem processLines_mem (env : HostEnv) :
    ∀ (lines : List ParsedLine) (r : OutMsg), r ∈ (processLines env lines).1 →
      ∃ m : InMsg, ParsedLine.ok m ∈ lines ∧ r = mkResponse env m := by
  intro lines
  induction lines with
  | nil => intro r hr; simp [processLines] at hr
  | cons l rest ih =>
    intro r hr
    cases l with
    | blank =>
      obtain ⟨m, hm, he⟩ := ih r hr
      exact ⟨m, List.mem_cons_of_mem _ hm, he⟩
    | ok m =>
      rcases List.mem_cons.mp hr with h | h
      · exact ⟨m, List.mem_cons_self _ _, h⟩
      · obtain ⟨m2, hm2, he2⟩ := ih r h
        exact ⟨m2, List.mem_cons_of_mem _ hm2, he2⟩
    | malformed d => simp [processLines] at hr

/-- A non-removing handler effect leaves every already-present index of
the handler list unchanged. -/
theorem applyEff_keeps_index (h : Handler) (hr : removes h.eff = false) (c : List Handler)
    (j : Nat) (hj : j < c.length) : getElem? (applyEff h c) j = getElem? c j := by
  cases heff : h.eff with
  | pure => simp [applyEff, heff]
  | throws => simp [applyEff, heff]
  | removeAt i => rw [heff] at hr; simp [removes] at hr
  | appendNew nm =>
    simp only [applyEff, heff]
    exact List.getElem?_append_left hj

/-- forEach with the element count cached at start: when no handler
removes, the invocation log is exactly the names of the original list from
the current index on, whatever non-removing mutations accumulated so
far. -/
theorem forEachGo_no_remove (l : List Handler) (hl : ∀ h ∈ l, removes h.eff = false) :
    ∀ (r k : Nat) (c : List Handler), k + r = l.length →
      (∀ j, j < l.length → getElem? c j = getElem? l j) →
      (forEachGo r k c).2 = (l.drop k).map Handler.hname := by
  intro r
  induction r with
  | zero =>
    intro k c hk _
    have hkl : k = l.length := by omega
    subst hkl
    simp [forEachGo]
  | succ r ih =>
    intro k c hk hagree
    have hklen : k < l.length := by omega
    have hcg : getElem? c k = some l[k] := by
      rw [hagree k hklen]; exact List.getElem?_eq_getElem hklen
    have hmem : l[k] ∈ l := List.getElem_mem hklen
    have hrem : removes (l[k]).eff = false := hl _ hmem
    have hclen : ∀ j, j < l.length → j < c.length := by
      intro j hj
      have hgj := hagree j hj
      rw [List.getElem?_eq_getElem hj] at hgj
      obtain ⟨hlt, _⟩ := List.getElem?_eq_some_iff.mp hgj
      exact hlt
    have hagree2 : ∀ j, j < l.length → getElem? (applyEff l[k] c) j = getElem? l j := by
      intro j hj
      rw [applyEff_keeps_index _ hrem c j (hclen j hj)]
      exact hagree j hj
    have hrec := ih (k + 1) (applyEff l[k] c) (by omega) hagree2
    have hdrop : List.drop k l = l[k] :: List.drop (k + 1) l :=
      List.drop_eq_getElem_cons hklen
    calc (forEachGo (r + 1) k c).2
        = l[k].hname :: (forEachGo r (k + 1) (applyEff l[k] c)).2 := by
          simp only [forEachGo, hcg]
      _ = l[k].hname :: List.map Handler.hname (List.drop (k + 1) l) := by rw [hrec]
      _ = List.map Handler.hname (l[k] :: List.drop (k + 1) l) := rfl
      _ = List.map Handler.hname (List.drop k l) := by rw [hdrop]

/-- emit over a handler list in which no handler unregisters: the
handlers invoked are exactly those registered at emission start, in
registration order. -/
theorem emit_no_remove (l : List Handler) (hl : ∀ h ∈ l, removes h.eff = false) :
    (emit l).2 = l.map Handler.hname := by
  have h := forEachGo_no_remove l hl l.length 0 l (by omega) (fun j _ => rfl)
  simpa [emit] using h

/-!
Claim C5.
-/

/-- C5 counterexample: emit does not iterate over a snapshot.  With two
handlers registered at emission start, the first of which unregisters the
second (the splice idiom the variant source itself uses inside its
round-trip handlers), the second registered handler is never invoked: the
invocation log is just the first name, although both handlers were
registered at the moment the emission began.  Under the claimed snapshot
semantics both would have been invoked. -/
theorem C5_remove_skips_counterexample :
    (emit [Handler.mk "h1" (HEffect.removeAt 1), Handler.mk "h2" HEffect.pure]).2 = ["h1"] ∧
    [Handler.mk "h1" (HEffect.removeAt 1), Handler.mk "h2" HEffect.pure].map Handler.hname
      = ["h1", "h2"] := by
  exact ⟨rfl, rfl⟩

/-- C5 (amended): emit fixes the handler count at emission start and, at
each index below that count, invokes the handler currently at that index;
when no handler unregisters a handler of the same event during the
emission, the handlers invoked are exactly those registered at emission
start, in registration order (in particular a handler that registers new
handlers during emission does not get them invoked). -/
theorem C5_emit_fixed_count (l : List Handler)
    (hl : ∀ h ∈ l, removes h.eff = false) :
    (emit l).2 = l.map Handler.hname :=
  emit_no_remove l hl

/-- C5 witness: a concrete emission in which the first handler registers a
new handler mid-emission; the log is exactly the two names registered at
start. -/
theorem C5_emit_fixed_count_witness :
    (∀ h ∈ [Handler.mk "a" (HEffect.appendNew "x"), Handler.mk "b" HEffect.pure],
      removes h.eff = false) ∧
    (emit [Handler.mk "a" (HEffect.appendNew "x"), Handler.mk "b" HEffect.pure]).2
      = [Handler.mk "a" (HEffect.appendNew "x"), Handler.mk "b" HEffect.pure].map Handler.hname := by
  have h : ∀ x ∈ [Handler.mk "a" (HEffect.appendNew "x"), Handler.mk "b" HEffect.pure],
      removes x.eff = false := by decide
  exact ⟨h, C5_emit_fixed_count _ h⟩

/-!
Claim C9.
-/

/-- C9: with three handlers registered on one event, each of which either
returns normally or throws (the throw being caught and logged by the
wrapper inside emit), one emission invokes all three exactly once, in
registration order; in particular the first and third run even when the
second throws. -/
theorem C9_three_handlers_in_order (h1 h2 h3 : Handler)
    (e1 : h1.eff = HEffect.pure ∨ h1.eff = HEffect.throws)
    (e2 : h2.eff = HEffect.pure ∨ h2.eff = HEffect.throws)
    (e3 : h3.eff = HEffect.pure ∨ h3.eff = HEffect.throws) :
    (emit [h1, h2, h3]).2 = [h1.hname, h2.hname, h3.hname] := by
  have hl : ∀ h ∈ [h1, h2, h3], removes h.eff = false := by
    intro h hh
    rcases List.mem_cons.mp hh with rfl | hh2
    · rcases e1 with he | he <;> rw [he] <;> rfl
    rcases List.mem_cons.mp hh2 with rfl | hh3
    · rcases e2 with he | he <;> rw [he] <;> rfl
    rcases List.mem_cons.mp hh3 with rfl | hh4
    · rcases e3 with he | he <;> rw [he] <;> rfl
    · simp at hh4
  exact emit_no_remove [h1, h2, h3] hl

/-!
Claim C1.
-/

/-- C1: in the outbound stream of a loaded run fed well-formed lines whose
ids are non-null (the protocol's inbound ids are numbers or strings), the
stream starts with the readiness notification, every following outbound
message is the response of the corresponding inbound line in order and
carries that line's id verbatim, and no outbound message other than the
readiness notification carries the null id. -/
theorem C1_id_echo (env : HostEnv) (lines : List ParsedLine)
    (h : ∀ l ∈ lines, ∃ m : InMsg, l = ParsedLine.ok m ∧ m.id ≠ JId.null) :
    (runTrace env lines).head? = some initMsg ∧
    List.Forall₂
      (fun l r => ∃ m : InMsg, l = ParsedLine.ok m ∧ r = mkResponse env m ∧ r.id = m.id)
      lines (runTrace env lines).tail ∧
    ∀ r ∈ (runTrace env lines).tail, r.id ≠ JId.null := by
  have htail : (runTrace env lines).tail = (processLines env lines).1 := rfl
  refine ⟨rfl, ?_, ?_⟩
  · rw [htail]
    have hall := processLines_forall2 env lines (fun l hl => (h l hl).imp fun m hm => hm.1)
    refine hall.imp ?_
    rintro l r ⟨m, hl, hr⟩
    exact ⟨m, hl, hr, by rw [hr, mkResponse_id]⟩
  · rw [htail]
    intro r hr
    obtain ⟨m, hmem, rfl⟩ := processLines_mem env lines r hr
    obtain ⟨m2, hm2, hid⟩ := h _ hmem
    cases hm2
    rw [mkResponse_id]
    exact hid

/-- C1 witness: a loaded host with one handler and one well-formed inbound
line with id 7; the trace starts with the readiness notification and the
single response echoes id 7. -/
theorem C1_id_echo_witness :
    (∀ l ∈ [ParsedLine.ok wMsg7], ∃ m : InMsg, l = ParsedLine.ok m ∧ m.id ≠ JId.null) ∧
    ((runTrace hitEnv [ParsedLine.ok wMsg7]).head? = some initMsg ∧
     List.Forall₂
       (fun l r => ∃ m : InMsg, l = ParsedLine.ok m ∧ r = mkResponse hitEnv m ∧ r.id = m.id)
       [ParsedLine.ok wMsg7] (runTrace hitEnv [ParsedLine.ok wMsg7]).tail ∧
     ∀ r ∈ (runTrace hitEnv [ParsedLine.ok wMsg7]).tail, r.id ≠ JId.null) := by
  have h : ∀ l ∈ [ParsedLine.ok wMsg7], ∃ m : InMsg, l = ParsedLine.ok m ∧ m.id ≠ JId.null := by
    intro l hl
    rw [List.mem_singleton] at hl
    exact ⟨wMsg7, hl, by decide⟩
  exact ⟨h, C1_id_echo hitEnv [ParsedLine.ok wMsg7] h⟩

/-!
Claim C2.
-/

/-- A value that is neither null nor undefined (undefined fields are
dropped by JSON.stringify, so they read back as absent, i.e. null-ish, on
the Python side). -/
def nonNullV (v : JVal) : Prop := v ≠ JVal.null ∧ v ≠ JVal.undef

/-- Exactly one of the result and error fields of an outbound message is
non-null. -/
def exactlyOneNonNull (r : OutMsg) : Prop :=
  (nonNullV r.result ∧ ¬ nonNullV r.error) ∨ (¬ nonNullV r.result ∧ nonNullV r.error)

/-- C2 counterexample: a plugin handler may legitimately resolve with
null; the response the runner then writes for a well-formed search request
has result null and error null, so zero of the two fields is non-null and
the claimed mutual exclusivity fails on an outbound response. -/
theorem C2_null_result_counterexample :
    (runTrace nullResultEnv [ParsedLine.ok wMsg7]).get? 1 =
      some { id := JId.num 7, result := JVal.null, error := JVal.null } := rfl

/-- C2 (amended): on a successful dispatch the response carries the
handler's value with a null error, and on any failure it carries an
unassigned (undefined, hence absent after serialization) result with the
failure message as a non-null error string; consequently exactly one of
result and error is non-null whenever the handler's own value is neither
null nor undefined, and the readiness notification satisfies the
exclusivity unconditionally. -/
theorem C2_result_error_assembly (env : HostEnv) (m : InMsg)
    (hok : ∀ v, dispatchMethod env m.method m.params = Except.ok v → nonNullV v) :
    (∀ v, dispatchMethod env m.method m.params = Except.ok v →
        mkResponse env m = { id := m.id, result := v, error := JVal.null }) ∧
    (∀ e, dispatchMethod env m.method m.params = Except.error e →
        mkResponse env m = { id := m.id, result := JVal.undef, error := JVal.str e }) ∧
    exactlyOneNonNull (mkResponse env m) ∧
    exactlyOneNonNull initMsg := by
  refine ⟨?_, ?_, ?_, ?_⟩
  · intro v hv; simp [mkResponse, hv]
  · intro e he; simp [mkResponse, he]
  · cases hd : dispatchMethod env m.method m.params with
    | ok v =>
      have hv := hok v hd
      left
      refine ⟨?_, ?_⟩
      · simpa [mkResponse, hd] using hv
      · simp [mkResponse, hd, nonNullV]
    | error e =>
      right
      refine ⟨?_, ?_⟩
      · simp [mkResponse, hd, nonNullV]
      · simp [mkResponse, hd, nonNullV]
  · left
    refine ⟨⟨?_, ?_⟩, ?_⟩ <;> simp [initMsg, nonNullV]

/-- C2 witness: a host whose handler resolves a fixed two-item list for a
well-formed search request; the hypothesis holds and the response shape
and exclusivity follow. -/
theorem C2_result_error_assembly_witness :
    (∀ v, dispatchMethod twoItemEnv wMsg7.method wMsg7.params = Except.ok v → nonNullV v) ∧
    ((∀ v, dispatchMethod twoItemEnv wMsg7.method wMsg7.params = Except.ok v →
        mkResponse twoItemEnv wMsg7 = { id := wMsg7.id, result := v, error := JVal.null }) ∧
     (∀ e, dispatchMethod twoItemEnv wMsg7.method wMsg7.params = Except.error e →
        mkResponse twoItemEnv wMsg7 = { id := wMsg7.id, result := JVal.undef, error := JVal.str e }) ∧
     exactlyOneNonNull (mkResponse twoItemEnv wMsg7) ∧
     exactlyOneNonNull initMsg) := by
  have hok : ∀ v, dispatchMethod twoItemEnv wMsg7.method wMsg7.params = Except.ok v →
      nonNullV v := by
    intro v hv
    have hred : Except.ok (JVal.arr [JVal.str "song1", JVal.str "song2"]) =
        (Except.ok v : Except String JVal) := hv
    injection hred with hv2
    rw [← hv2]
    exact ⟨by simp, by simp⟩
  exact ⟨hok, C2_result_error_assembly twoItemEnv wMsg7 hok⟩

/-!
Claim C3.
-/

/-- C3 (code bug evaluation): a chunk holding one malformed line followed
by one well-formed line.  The catch branch of the stdin data handler
builds its error response from the identifier message, a const declared
inside the try block and out of scope in the catch, so evaluating it
raises a ReferenceError inside the catch handler: the loop writes no error
response at all, the exception escapes the data handler, and the following
well-formed line of the chunk is never processed.  The claimed behavior
(write an error response with null id and carry on with the next line)
does not happen. -/
theorem C3_malformed_line_aborts :
    processLines hitEnv
      [ParsedLine.malformed "Unexpected token x in JSON at position 0",
       ParsedLine.ok wMsg7] =
      ([], some "ReferenceError: message is not defined") := rfl

/-!
Claim C6.
-/

/-- With no handler registered for the request event, every one of the six
operations rejects with the fixed no-handler message. -/
theorem dispatch_no_handler (method : String) (ps : List (String × JVal))
    (hm : method ∈ ["search", "getMediaSource", "getLyric", "getAlbum",
      "getArtist", "getRecommend"])
    (hopt : lookupField ps "options" ≠ JVal.null) :
    dispatchMethod ⟨[]⟩ method (JVal.obj ps) = Except.error "No request handler registered" := by
  simp only [List.mem_cons, List.mem_singleton, List.not_mem_nil, or_false] at hm
  rcases hm with rfl | rfl | rfl | rfl | rfl | rfl
  case inl => rfl
  case inr.inl =>
    have hstep : dispatchMethod ⟨[]⟩ "getMediaSource" (JVal.obj ps) =
        runnerGetMediaSource ⟨[]⟩ (lookupField ps "musicItem") (lookupField ps "source")
          (lookupField ps "options") := rfl
    rw [hstep]
    unfold runnerGetMediaSource
    rcases hL : lookupField ps "options" with _ | _ | b | n | s | fs | es
    · exact absurd hL hopt
    all_goals rfl
  all_goals rfl

/-- C6: while no handler is registered for the multiplexed request event,
every one of the six operations, invoked through a well-formed request
(object params whose options field, when present, is not null), is
answered with a per-request error response carrying the inbound id and the
no-handler message, and the line loop carries on: the lines after it are
processed exactly as they would be on their own. -/
theorem C6_no_handler_error (idv : JId) (method : String) (ps : List (String × JVal))
    (hm : method ∈ ["search", "getMediaSource", "getLyric", "getAlbum",
      "getArtist", "getRecommend"])
    (hopt : lookupField ps "options" ≠ JVal.null) :
    mkResponse ⟨[]⟩ ⟨idv, method, JVal.obj ps⟩ =
      { id := idv, result := JVal.undef,
        error := JVal.str "No request handler registered" } ∧
    ∀ rest, processLines ⟨[]⟩ (ParsedLine.ok ⟨idv, method, JVal.obj ps⟩ :: rest) =
      (mkResponse ⟨[]⟩ ⟨idv, method, JVal.obj ps⟩ :: (processLines ⟨[]⟩ rest).1,
       (processLines ⟨[]⟩ rest).2) := by
  refine ⟨?_, fun rest => rfl⟩
  have hd := dispatch_no_handler method ps hm hopt
  simp [mkResponse, hd]

/-- C6 witness: a search request with id 5 and empty params against the
empty registry is answered with the no-handler error, and a second line
after it is still processed. -/
theorem C6_no_handler_error_witness :
    ("search" ∈ ["search", "getMediaSource", "getLyric", "getAlbum",
      "getArtist", "getRecommend"]) ∧
    (lookupField [] "options" ≠ JVal.null) ∧
    (mkResponse ⟨[]⟩ ⟨JId.num 5, "search", JVal.obj []⟩ =
      { id := JId.num 5, result := JVal.undef,
        error := JVal.str "No request handler registered" } ∧
     ∀ rest, processLines ⟨[]⟩ (ParsedLine.ok ⟨JId.num 5, "search", JVal.obj []⟩ :: rest) =
      (mkResponse ⟨[]⟩ ⟨JId.num 5, "search", JVal.obj []⟩ :: (processLines ⟨[]⟩ rest).1,
       (processLines ⟨[]⟩ rest).2)) := by
  have hm : "search" ∈ ["search", "getMediaSource", "getLyric", "getAlbum",
      "getArtist", "getRecommend"] := by decide
  have hopt : lookupField [] "options" ≠ JVal.null := by simp [lookupField]
  exact ⟨hm, hopt, C6_no_handler_error (JId.num 5) "search" [] hm hopt⟩

/-!
Claim C7.
-/

/-- C7: in a loaded run fed lines whose well-formed messages all carry
non-null ids (as the inbound protocol specifies), the outbound stream
starts with the readiness notification, and that notification is the only
outbound message with a null id, so it is emitted exactly once and
before the response to any inbound line. -/
theorem C7_readiness_first (env : HostEnv) (lines : List ParsedLine)
    (h : ∀ m : InMsg, ParsedLine.ok m ∈ lines → m.id ≠ JId.null) :
    (runTrace env lines).head? = some initMsg ∧
    (runTrace env lines).countP (fun r => decide (r.id = JId.null)) = 1 := by
  refine ⟨rfl, ?_⟩
  have hcount0 : (processLines env lines).1.countP (fun r => decide (r.id = JId.null)) = 0 := by
    rw [List.countP_eq_zero]
    intro r hr
    obtain ⟨m, hmem, rfl⟩ := processLines_mem env lines r hr
    rw [mkResponse_id]
    simpa using h m hmem
  have htrace : runTrace env lines = initMsg :: (processLines env lines).1 := rfl
  rw [htrace, List.countP_cons, hcount0]
  simp [initMsg]

/-- C7 witness: one well-formed line with id 7; the trace head is the
readiness notification and the null id appears exactly once. -/
theorem C7_readiness_first_witness :
    (∀ m : InMsg, ParsedLine.ok m ∈ [ParsedLine.ok wMsg7] → m.id ≠ JId.null) ∧
    ((runTrace hitEnv [ParsedLine.ok wMsg7]).head? = some initMsg ∧
     (runTrace hitEnv [ParsedLine.ok wMsg7]).countP (fun r => decide (r.id = JId.null)) = 1) := by
  have h : ∀ m : InMsg, ParsedLine.ok m ∈ [ParsedLine.ok wMsg7] → m.id ≠ JId.null := by
    intro m hm
    rw [List.mem_singleton] at hm
    injection hm with hm2
    rw [hm2]
    decide
  exact ⟨h, C7_readiness_first hitEnv [ParsedLine.ok wMsg7] h⟩

/-!
Claim C4.
-/

/-- C4 counterexample: three well-formed requests, ids 1 and 3 arriving
in one chunk at tick 0 (the dispatch of id 1 resolves after two ticks, id
3 immediately), and id 2 arriving in a second chunk at tick 1, while the
first dispatch is still awaited.  Each data event spawns its own async
handler invocation over the shared buffer and nothing serializes them: the
second invocation starts while the dispatch of id 1 is outstanding, drains
the shared buffer — including id 3, still queued from the first chunk —
and answers ids 3 and 2 before id 1 resolves.  The simulated outbound
stream is the responses to ids 3, 2, 1 in that order, although arrival
order was 1, 3, 2: the claimed single outstanding dispatch and
arrival-order response writing fail both for the separate-chunk pair
(1 before 2) and for the same-chunk pair (1 before 3). -/
theorem C4_out_of_order_counterexample :
    simLoop hitEnv slowFirstDelay 6
      [[ParsedLine.ok wMsgA, ParsedLine.ok wMsgC], [ParsedLine.ok wMsgB]] [] [] [] =
      [mkResponse hitEnv wMsgC, mkResponse hitEnv wMsgB, mkResponse hitEnv wMsgA] ∧
    (mkResponse hitEnv wMsgC).id = JId.num 3 ∧
    (mkResponse hitEnv wMsgB).id = JId.num 2 ∧
    (mkResponse hitEnv wMsgA).id = JId.num 1 :=
  ⟨rfl, rfl, rfl, rfl⟩

/-- C4 (amended): dispatcher calls are serialized only within one stdin
data-handler invocation — the line loop awaits each dispatch before
extracting the next line — so under the side condition that no further
chunk is delivered before the invocation has processed all its lines
(which processLines embeds: one data event run in isolation), the requests
of that chunk are answered in arrival order, one response per request.
Without that condition the guarantee fails: a chunk arriving while a
dispatch is outstanding spawns a second, concurrent handler invocation
over the shared buffer, dispatches overlap, and responses can be written
out of arrival order — the new invocation can even drain still-queued
lines of the earlier chunk, reordering two requests of the same chunk. -/
theorem C4_same_chunk_serialized (env : HostEnv) (lines : List ParsedLine)
    (h : ∀ l ∈ lines, ∃ m : InMsg, l = ParsedLine.ok m) :
    List.Forall₂ (fun l r => ∃ m : InMsg, l = ParsedLine.ok m ∧ r = mkResponse env m)
      lines (processLines env lines).1 ∧
    (processLines env lines).1.length = lines.length :=
  ⟨processLines_forall2 env lines h,
    (List.Forall₂.length_eq (processLines_forall2 env lines h)).symm⟩

/-- C4 witness: the same two requests delivered in a single chunk are
answered in arrival order, first id 1 then id 2. -/
theorem C4_same_chunk_serialized_witness :
    (∀ l ∈ [ParsedLine.ok wMsgA, ParsedLine.ok wMsgB], ∃ m : InMsg, l = ParsedLine.ok m) ∧
    (List.Forall₂ (fun l r => ∃ m : InMsg, l = ParsedLine.ok m ∧ r = mkResponse hitEnv m)
      [ParsedLine.ok wMsgA, ParsedLine.ok wMsgB]
      (processLines hitEnv [ParsedLine.ok wMsgA, ParsedLine.ok wMsgB]).1 ∧
     (processLines hitEnv [ParsedLine.ok wMsgA, ParsedLine.ok wMsgB]).1.length =
       [ParsedLine.ok wMsgA, ParsedLine.ok wMsgB].length) := by
  have h : ∀ l ∈ [ParsedLine.ok wMsgA, ParsedLine.ok wMsgB],
      ∃ m : InMsg, l = ParsedLine.ok m := by
    intro l hl
    rcases List.mem_cons.mp hl with rfl | hl2
    · exact ⟨wMsgA, rfl⟩
    rcases List.mem_cons.mp hl2 with rfl | hl3
    · exact ⟨wMsgB, rfl⟩
    · simp at hl3
  exact ⟨h, C4_same_chunk_serialized hitEnv [ParsedLine.ok wMsgA, ParsedLine.ok wMsgB] h⟩

/-!
Claim C8.
-/

/-- C8 counterexample: the claim also covers the variant's send
(src/unnamed/part_000, lines 115 to 122), which has no event-name filter:
in the main-thread run it writes every event to stdout.  The request
event — the very event the variant's own search method sends — is not the
readiness event, yet the variant's send delivers it to the outbound
protocol stream rather than to the diagnostic sink, refuting the claimed
nothing-is-written-to-the-protocol-stream for non-readiness events. -/
theorem C8_variant_send_counterexample :
    ("request" ≠ "inited") ∧
    variantSend false "request" (JVal.obj [("action", JVal.str "search")]) =
      SendDest.protocolWrite "request" (JVal.obj [("action", JVal.str "search")]) ∧
    isProtocolWrite (variantSend false "request"
      (JVal.obj [("action", JVal.str "search")])) = true :=
  ⟨by decide, rfl, rfl⟩

/-- C8 (amended): in the canonical runner's send, in the main-thread run
(no parent port), the notify/send primitive is dual-destination by event
identity: the inited readiness event is forwarded to the outbound
protocol stream, and every other event name is diverted to the diagnostic
log, with nothing written to the protocol stream for it; the variant's
send has no such filter and writes every event to the protocol stream. -/
theorem C8_send_dual_destination (event : String) (data : JVal) (h : event ≠ "inited") :
    send false "inited" data = SendDest.protocolWrite "inited" data ∧
    send false event data = SendDest.diagLog event data ∧
    isProtocolWrite (send false event data) = false := by
  refine ⟨rfl, ?_, ?_⟩
  · simp [send, h]
  · simp [send, h, isProtocolWrite]

/-- C8 witness: the sources event (the other kind of notification the
plugin sends at startup) goes to the diagnostic log, not to the protocol
stream, while inited goes to the protocol stream. -/
theorem C8_send_dual_destination_witness :
    ("sources" ≠ "inited") ∧
    (send false "inited" JVal.null = SendDest.protocolWrite "inited" JVal.null ∧
     send false "sources" JVal.null = SendDest.diagLog "sources" JVal.null ∧
     isProtocolWrite (send false "sources" JVal.null) = false) :=
  ⟨by decide, C8_send_dual_destination "sources" JVal.null (by decide)⟩

/-!
Claim C10.
-/

/-- C10: in the variant source, every well-formed request (object params)
whose method is getLyric, getAlbum, getArtist or getRecommend is answered
with an error response: the class defines only search and getMediaSource,
so the call of the missing method raises the is-not-a-function TypeError,
and the response carries the inbound id, no successful result (the result
variable is never assigned) and that TypeError message as its non-null
error. -/
theorem C10_variant_missing_methods (idv : JId) (method : String)
    (ps : List (String × JVal))
    (hm : method ∈ ["getLyric", "getAlbum", "getArtist", "getRecommend"]) :
    variantHasMethod method = false ∧
    variantProcess ⟨idv, method, JVal.obj ps⟩ =
      VariantOutcome.responds
        { id := idv, result := JVal.undef,
          error := JVal.str ("runner." ++ method ++ " is not a function") } := by
  simp only [List.mem_cons, List.mem_singleton, List.not_mem_nil, or_false] at hm
  rcases hm with rfl | rfl | rfl | rfl <;> exact ⟨rfl, rfl⟩

/-- C10 witness: a getAlbum request with id a7 against the variant is
answered with the is-not-a-function error. -/
theorem C10_variant_missing_methods_witness :
    ("getAlbum" ∈ ["getLyric", "getAlbum", "getArtist", "getRecommend"]) ∧
    (variantHasMethod "getAlbum" = false ∧
     variantProcess ⟨JId.str "a7", "getAlbum", JVal.obj [("albumId", JVal.num 9)]⟩ =
      VariantOutcome.responds
        { id := JId.str "a7", result := JVal.undef,
          error := JVal.str ("runner." ++ "getAlbum" ++ " is not a function") }) :=
  ⟨by decide,
    C10_variant_missing_methods (JId.str "a7") "getAlbum" [("albumId", JVal.num 9)] (by decide)⟩

/-- C9 witness: three concrete handlers, the second of which throws; all
three are invoked, in registration order. -/
theorem C9_three_handlers_in_order_witness :
    ((Handler.mk "f" HEffect.pure).eff = HEffect.pure ∨
      (Handler.mk "f" HEffect.pure).eff = HEffect.throws) ∧
    ((Handler.mk "g" HEffect.throws).eff = HEffect.pure ∨
      (Handler.mk "g" HEffect.throws).eff = HEffect.throws) ∧
    ((Handler.mk "k" HEffect.pure).eff = HEffect.pure ∨
      (Handler.mk "k" HEffect.pure).eff = HEffect.throws) ∧
    (emit [Handler.mk "f" HEffect.pure, Handler.mk "g" HEffect.throws,
        Handler.mk "k" HEffect.pure]).2 = ["f", "g", "k"] :=
  ⟨Or.inl rfl, Or.inr rfl, Or.inl rfl,
    C9_three_handlers_in_order _ _ _ (Or.inl rfl) (Or.inr rfl) (Or.inl rfl)⟩

end LXRunner
